import Mathlib

/-!
Shallow embedding of the antikythera combat-simulation core
(crates `antikythera` and the older top-level `src` crate of the same
repository), covering the parts of the code that the verified claims
are about: the dice engine (`rules/dice.rs`), the action economy
(`rules/actions.rs`), the combat state (`simulation/state.rs`), the
transition model (`simulation/transition.rs`), both generations of the
state tree (`statistics/state_tree.rs` on petgraph and the arena-based
`simulation/state_tree.rs`), the integrator's log-application loops
(`statistics/integration.rs` and `simulation/integration.rs`), and the
outcome-probability query (`statistics/query.rs`).

Modelling conventions:
* Rust `u32`/`u64`/`i32` are modelled as `Nat`/`Int`; wrap-around is made
  explicit with `% 2 ^ 32` exactly where the code relies on it
  (release-profile wrapping semantics of `+=` on `u32`).  A `u64`
  saturating counter increment is modelled by `u64_saturating_add_one`.
* `BTreeMap` is modelled as an association list in ascending key order;
  claims that need key uniqueness take it as a hypothesis.
* The 64-bit structural state hash (`StateHash::hash_state`) is modelled
  as the state itself, i.e. as a collision-free hash; no claim concerns
  hash collisions.
* Fallible Rust code (`anyhow::Result`) is modelled with explicit result
  types; a Rust panic (division by zero in `AdvanceInitiative`, a failed
  `debug_assert_eq!`) is a distinguished constructor, since it is neither
  success nor a returned error.
* Fields of `Actor`/`State` that no modelled operation reads or writes
  (names, items and inventories, proficiencies, levels, movement, death
  saves, the id counters) are omitted; they are constant under every
  transition and so do not affect any claim.
-/

namespace Antikythera

/-- Ability scores, from `rules/stats.rs` (`enum Stat`). -/
inductive Stat
  | strength
  | dexterity
  | constitution
  | intelligence
  | wisdom
  | charisma
  deriving DecidableEq

/-- Ability score block, from `rules/stats.rs` (`struct Stats`); each field is a `u32`. -/
structure Stats where
  strength : Nat
  dexterity : Nat
  constitution : Nat
  intelligence : Nat
  wisdom : Nat
  charisma : Nat
  deriving DecidableEq

/-- Field selection, from `Stats::get` in `rules/stats.rs`. -/
def Stats.get (st : Stats) : Stat → Nat
  | .strength => st.strength
  | .dexterity => st.dexterity
  | .constitution => st.constitution
  | .intelligence => st.intelligence
  | .wisdom => st.wisdom
  | .charisma => st.charisma

/-- Field update, from `Stats::set` / writing through `Stats::get_mut` in `rules/stats.rs`. -/
def Stats.set (st : Stats) (stat : Stat) (value : Nat) : Stats :=
  match stat with
  | .strength => { st with strength := value }
  | .dexterity => { st with dexterity := value }
  | .constitution => { st with constitution := value }
  | .intelligence => { st with intelligence := value }
  | .wisdom => { st with wisdom := value }
  | .charisma => { st with charisma := value }

/-- Default stat block (all 10), from `impl Default for Stats`. -/
def Stats.default : Stats := ⟨10, 10, 10, 10, 10, 10⟩

/-- The two per-turn action-economy slots, from `rules/actions.rs` (`enum ActionEconomyUsage`). -/
inductive ActionEconomyUsage
  | action
  | bonusAction
  deriving DecidableEq

/-- Per-turn action-economy flag set, from `rules/actions.rs` (`struct ActionEconomy`). -/
structure ActionEconomy where
  action_used : Bool
  bonus_action_used : Bool
  reaction_used : Bool
  free_actions_used : Nat
  movement_used : Nat
  deriving DecidableEq

/-- Fresh action economy, from `impl Default for ActionEconomy` (derived `Default`). -/
def ActionEconomy.default : ActionEconomy := ⟨false, false, false, 0, 0⟩

/-- Start-of-turn reset, from `ActionEconomy::reset` in `rules/actions.rs`. -/
def ActionEconomy.reset (_ae : ActionEconomy) : ActionEconomy :=
  ⟨false, false, false, 0, 0⟩

/-- Slot availability test, from `ActionEconomy::can_take_action` in `rules/actions.rs`. -/
def ActionEconomy.can_take_action (ae : ActionEconomy) : ActionEconomyUsage → Bool
  | .action => !ae.action_used
  | .bonusAction => !ae.bonus_action_used

/-- The error values produced by `anyhow::bail!` in `ActionEconomy::use_action`. -/
inductive EconomyError
  | actionAlreadyUsed
  | bonusActionAlreadyUsed
  deriving DecidableEq

/-- Slot consumption, from `ActionEconomy::use_action` in `rules/actions.rs`:
fails when the requested slot was already used this turn, otherwise marks it used. -/
def ActionEconomy.use_action (ae : ActionEconomy) :
    ActionEconomyUsage → Except EconomyError ActionEconomy
  | .action =>
      if ae.action_used then .error .actionAlreadyUsed
      else .ok { ae with action_used := true }
  | .bonusAction =>
      if ae.bonus_action_used then .error .bonusActionAlreadyUsed
      else .ok { ae with bonus_action_used := true }

/-- The cast `delta as u32` applied to an `i32` in Rust: the value modulo `2 ^ 32`. -/
def i32_as_u32 (delta : Int) : Nat := (delta % (2 ^ 32)).toNat

/-- Wrap-around `u32` addition: release-profile semantics of `+=` on a `u32`
(the debug profile panics on overflow instead). -/
def u32_wrapping_add (a b : Nat) : Nat := (a + b) % 2 ^ 32

/-- Saturating increment of a `u64` counter, from `NonZeroU64::saturating_add(1)`
and `u64::saturating_add(1)`. -/
def u64_saturating_add_one (h : Nat) : Nat := min (h + 1) (2 ^ 64 - 1)

/-- Actor record, from `rules/actor.rs` (`struct Actor`), restricted to the fields
read or written by the modelled operations.  The `group` field is the ally-group
identifier read by `simulation/state.rs` (`actor.group`).  Ids are `u32`,
health values `i32`, initiative `Option<i32>`. -/
structure Actor where
  id : Nat
  group : Nat
  max_health : Int
  health : Int
  stats : Stats
  initiative : Option Int
  action_economy : ActionEconomy
  deriving DecidableEq

/-- Liveness test, from `Actor::is_alive` in `rules/actor.rs`: `health > 0`. -/
def Actor.is_alive (a : Actor) : Bool := a.health > 0

/-- Combat state, from `simulation/state.rs` (`struct State`), restricted to the
fields the modelled operations touch.  `actors` models the
`BTreeMap<ActorId, Actor>` as an association list in ascending key order. -/
structure State where
  turn : Nat
  actors : List (Nat × Actor)
  initiative_order : List Nat
  current_turn_index : Option Nat
  deriving DecidableEq

/-- First-match association-list lookup; models `BTreeMap::get` and
`FxHashMap::get` (unique keys). -/
def assocFind {α β : Type} [DecidableEq α] (l : List (α × β)) (k : α) : Option β :=
  match l with
  | [] => none
  | p :: rest => if p.1 = k then some p.2 else assocFind rest k

/-- Pointwise in-place update of the entry with the given key; models writing
through `BTreeMap::get_mut` (with unique keys exactly one entry changes). -/
def mapUpdate {α β : Type} [DecidableEq α] (l : List (α × β)) (k : α) (f : β → β) :
    List (α × β) :=
  l.map fun p => if p.1 = k then (p.1, f p.2) else p

/-- Insertion step of the stable sort: place `x` before the first element `y`
with `le x y`. -/
def insertDesc {α : Type} (le : α → α → Bool) (x : α) : List α → List α
  | [] => [x]
  | y :: ys => if le x y then x :: y :: ys else y :: insertDesc le x ys

/-- Stable insertion sort; models Rust's stable `slice::sort_by` with the given
comparator (`le a b` meaning the comparator allows `a` before `b`). -/
def sortBy {α : Type} (le : α → α → Bool) : List α → List α
  | [] => []
  | x :: xs => insertDesc le x (sortBy le xs)

/-- Combat-over test, from `State::is_combat_over` in
`antikythera/src/simulation/state.rs` (lines 102-114): counts the distinct
`group` values over ALL actors of the state — living or not — with a seen-set,
and reports combat over when at most one group remains. -/
def State.is_combat_over (s : State) : Bool :=
  let counted := s.actors.foldl
    (fun (acc : List Nat × Nat) p =>
      if acc.1.contains p.2.group then acc
      else (p.2.group :: acc.1, acc.2 + 1))
    ([], 0)
  counted.2 ≤ 1

/-- Number of distinct ally groups that still have at least one living member.
This is the notion the specification uses for the combat-loop exit test
("more than one allied group has a living member"); it is also what the older
`src/src/simulation/state.rs::is_combat_over` computes over its `allied_groups`. -/
def State.living_group_count (s : State) : Nat :=
  ((s.actors.filter fun p => p.2.is_alive).map fun p => p.2.group).dedup.length

/-- The transition variants, from `simulation/transition.rs` (`enum Transition`). -/
inductive Transition
  | root
  | beginCombat
  | endCombat
  | initiativeRoll (actor : Nat) (roll : Int)
  | beginTurn (actor : Nat)
  | endTurn (actor : Nat)
  | advanceInitiative
  | healthModification (target : Nat) (delta : Int)
  | statModification (target : Nat) (stat : Stat) (delta : Int)
  | actionEconomyUsed (target : Nat) (action_type : ActionEconomyUsage)
  deriving DecidableEq

/-- Outcome of `Transition::apply`: success with the mutated state, a returned
`anyhow` error, or a Rust panic (the `% 0` division in the `AdvanceInitiative`
arm is the one panic site under release-profile arithmetic). -/
inductive ApplyResult
  | ok (s : State)
  | err (e : EconomyError)
  | panic
  deriving DecidableEq

/-- State mutation, from `Transition::apply` in `simulation/transition.rs`
(lines 115-188), arm by arm:

* `Root` does nothing;
* `BeginCombat` sets `current_turn_index = Some(0)`;
* `EndCombat` resets turn bookkeeping and clears every actor's initiative;
* `InitiativeRoll` records the roll if the actor exists (silently skipping a
  missing actor), then recomputes the full initiative order by a stable sort
  on descending recorded value (`unwrap_or(0)` for unset initiative);
* `BeginTurn` resets the actor's action economy if the actor exists;
* `EndTurn` does nothing;
* `AdvanceInitiative` with a current index computes `(i + 1) % len`, which
  panics when the initiative order is empty, and bumps the turn counter on
  wrap to 0; with no current index it sets the index to 0;
* `HealthModification` adds the signed delta to the target's health if the
  target exists (silently skipping a missing target);
* `StatModification` adds `delta as u32` to the stat with wrap-around `u32`
  arithmetic if the target exists (silently skipping a missing target);
* `ActionEconomyUsed` consumes the slot via `use_action`, propagating its
  error; a missing target is silently skipped. -/
def Transition.apply (t : Transition) (s : State) : ApplyResult :=
  match t with
  | .root => .ok s
  | .beginCombat => .ok { s with current_turn_index := some 0 }
  | .endCombat =>
      .ok { s with
            turn := 0
            current_turn_index := none
            initiative_order := []
            actors := s.actors.map fun p => (p.1, { p.2 with initiative := none }) }
  | .initiativeRoll actor roll =>
      let actors1 := mapUpdate s.actors actor fun a => { a with initiative := some roll }
      let initiatives := actors1.map fun p => (p.1, p.2.initiative.getD 0)
      let sorted := sortBy (fun a b => decide (b.2 ≤ a.2)) initiatives
      .ok { s with actors := actors1, initiative_order := sorted.map Prod.fst }
  | .beginTurn actor =>
      .ok { s with actors := mapUpdate s.actors actor fun a =>
              { a with action_economy := a.action_economy.reset } }
  | .endTurn _ => .ok s
  | .advanceInitiative =>
      match s.current_turn_index with
      | some current_index =>
          if s.initiative_order.length = 0 then .panic
          else
            let next_index := (current_index + 1) % s.initiative_order.length
            .ok { s with
                  turn := if next_index = 0 then s.turn + 1 else s.turn
                  current_turn_index := some next_index }
      | none => .ok { s with current_turn_index := some 0 }
  | .healthModification target delta =>
      .ok { s with actors := mapUpdate s.actors target fun a =>
              { a with health := a.health + delta } }
  | .statModification target stat delta =>
      .ok { s with actors := mapUpdate s.actors target fun a =>
              { a with stats :=
                  a.stats.set stat (u32_wrapping_add (a.stats.get stat) (i32_as_u32 delta)) } }
  | .actionEconomyUsed target action_type =>
      match assocFind s.actors target with
      | none => .ok s
      | some a =>
          match a.action_economy.use_action action_type with
          | .error e => .err e
          | .ok ae =>
              .ok { s with actors := mapUpdate s.actors target fun a2 =>
                      { a2 with action_economy := ae } }

/-- Returned-error discriminator for `Transition::apply` results. -/
def ApplyResult.isErr : ApplyResult → Bool
  | .err _ => true
  | _ => false

/-! Dice engine, from `rules/dice.rs`. -/

/-- Advantage mode, from `enum Advantage`. -/
inductive Advantage
  | normal
  | advantage
  | disadvantage
  deriving DecidableEq

/-- Roll settings, from `struct RollSettings`; the optional bounds are `u32`. -/
structure RollSettings where
  advantage : Advantage
  minimum_die_value : Option Nat
  maximum_die_value : Option Nat
  reroll_dice_below : Option Nat
  deriving DecidableEq

/-- Default roll settings (derived `Default`): normal mode, no bounds. -/
def RollSettings.default : RollSettings := ⟨.normal, none, none, none⟩

/-- Criticality flag, from `enum Critical`. -/
inductive Critical
  | none
  | success
  | failure
  deriving DecidableEq

/-- Roll plan, from `struct RollPlan`. -/
structure RollPlan where
  num_dice : Nat
  die_size : Nat
  modifier : Int
  settings : RollSettings
  deriving DecidableEq

/-- Roll result, from `struct RollResult`. -/
structure RollResult where
  total : Int
  individual_rolls : List Nat
  critical : Critical
  roll_used : RollPlan
  deriving DecidableEq

/-- DC check, from `RollResult::meets_dc`: critical success always meets,
critical failure never meets, otherwise compare `total >= dc`. -/
def RollResult.meets_dc (r : RollResult) (dc : Int) : Bool :=
  match r.critical with
  | .success => true
  | .failure => false
  | .none => decide (r.total ≥ dc)

/-- Rust `Ord::clamp` on `u32` for `lo <= hi`: below the range goes to `lo`,
above it to `hi`.  (Rust panics when `lo > hi`; `RollPlan.roll_normal` models
that case separately.) -/
def rustClamp (x lo hi : Nat) : Nat := if x < lo then lo else if x > hi then hi else x

/-- Normal-mode roll evaluation, from `RollPlan::roll_normal` in `rules/dice.rs`
(lines 91-133).  `samples i` stands for the value the roller returns for die `i`
(`rng.roll(reroll_dice_below.unwrap_or(1), die_size)` in the source); the claims
proved about this function hold for every sample sequence, so the sampling
distribution is left unconstrained.  Each sample is clamped to
`[minimum_die_value.unwrap_or(1), maximum_die_value.unwrap_or(die_size)]` and
recorded; on a twenty-sided die the clamped faces 20 and 1 are counted as
critical-success and critical-failure faces, and the majority determines the
overall criticality.  The result is `none` exactly when the source would panic
in `clamp` (at least one die and `clamp_min > clamp_max`). -/
def RollPlan.roll_normal (plan : RollPlan) (samples : Nat → Nat) : Option RollResult :=
  let clamp_min := plan.settings.minimum_die_value.getD 1
  let clamp_max := plan.settings.maximum_die_value.getD plan.die_size
  if plan.num_dice ≠ 0 ∧ clamp_max < clamp_min then none
  else
    let individual_rolls :=
      (List.range plan.num_dice).map fun i => rustClamp (samples i) clamp_min clamp_max
    let crit_success_count := if plan.die_size = 20 then individual_rolls.count 20 else 0
    let crit_failure_count := if plan.die_size = 20 then individual_rolls.count 1 else 0
    let critical :=
      if crit_success_count > crit_failure_count then Critical.success
      else if crit_failure_count > crit_success_count then Critical.failure
      else Critical.none
    let total := (individual_rolls.map fun r => (r : Int)).sum + plan.modifier
    some ⟨total, individual_rolls, critical, plan⟩

namespace Statistics

/-! The petgraph-based state tree of `statistics/state_tree.rs`, the
log-application loop of `statistics/integration.rs`, and the query of
`statistics/query.rs`. -/

/-- Graph node, from `struct Node` in `statistics/state_tree.rs`: the structural
hash of the state (modelled as the state itself) plus a `NonZeroU64` hit counter. -/
structure Node where
  state_hash : State
  hits : Nat
  deriving DecidableEq

/-- Graph edge weight, from `struct Edge` in `statistics/state_tree.rs`. -/
structure Edge where
  transition : Transition
  hits : Nat
  deriving DecidableEq

/-- The state tree, from `struct StateTree` in `statistics/state_tree.rs`.
`nodes` is the petgraph node arena (index = `NodeIndex`); `edges` lists
`(source, target, weight)` in insertion order.  `state_cache` is the
`FxHashMap<StateHash, NodeIndex>`; as in the source it is filled only by
`new` — `add_node` never extends it. -/
structure StateTree where
  initial_state : State
  nodes : List Node
  edges : List (Nat × Nat × Edge)
  root : Nat
  total_node_hits : Nat
  total_edge_hits : Nat
  state_cache : List (State × Nat)
  deriving DecidableEq

/-- Constructor, from `StateTree::new`: one root node with hit count 1, cached. -/
def StateTree.new (initial_state : State) : StateTree :=
  { initial_state := initial_state
    nodes := [⟨initial_state, 1⟩]
    edges := []
    root := 0
    total_node_hits := 0
    total_edge_hits := 0
    state_cache := [(initial_state, 0)] }

/-- Node insertion, from `StateTree::add_node` (lines 77-92): on a cache hit the
existing node's hits and the node-hit total are saturating-incremented; otherwise
a fresh node with hit count 1 is appended.  As in the source, the fresh node is
NOT inserted into `state_cache`, so only the initial state is ever deduplicated. -/
def StateTree.add_node (t : StateTree) (state : State) : StateTree × Nat :=
  match assocFind t.state_cache state with
  | some existing_index =>
      match t.nodes.get? existing_index with
      | some node =>
          ({ t with
             nodes := t.nodes.set existing_index
               { node with hits := u64_saturating_add_one node.hits }
             total_node_hits := u64_saturating_add_one t.total_node_hits },
           existing_index)
      | none => (t, existing_index)
  | none => ({ t with nodes := t.nodes ++ [⟨state, 1⟩] }, t.nodes.length)

/-- Edge lookup, from petgraph `find_edge(from, to)`: the index of the (unique)
edge with the given endpoints. -/
def StateTree.find_edge (t : StateTree) (src dst : Nat) : Option Nat :=
  t.edges.findIdx? fun e => src == e.1 && dst == e.2.1

/-- Edge insertion, from `StateTree::add_edge` (lines 94-119): if an edge for
the node pair exists, its hits and the edge-hit total are saturating-incremented
and its index returned — the `transition` argument is NOT compared against the
stored one (no divergence detection in this generation of the tree); otherwise a
fresh edge with hit count 1 is appended (without touching the edge-hit total,
as in the source). -/
def StateTree.add_edge (t : StateTree) (src dst : Nat) (transition : Transition) :
    StateTree × Option Nat :=
  match t.find_edge src dst with
  | some existing_edge =>
      match t.edges.get? existing_edge with
      | some e =>
          ({ t with
             edges := t.edges.set existing_edge
               (e.1, e.2.1, { e.2.2 with hits := u64_saturating_add_one e.2.2.hits })
             total_edge_hits := u64_saturating_add_one t.total_edge_hits },
           some existing_edge)
      | none => (t, some existing_edge)
  | none => ({ t with edges := t.edges ++ [(src, dst, ⟨transition, 1⟩)] },
             some t.edges.length)

/-- Outgoing-neighbor list of a node, from petgraph `neighbors`. -/
def StateTree.neighborsOf (t : StateTree) (n : Nat) : List Nat :=
  t.edges.filterMap fun e => if e.1 = n then some e.2.1 else none

/-- Terminal nodes, from petgraph `externals(Outgoing)`: the node indices with
no outgoing edge. -/
def StateTree.externals (t : StateTree) : List Nat :=
  (List.range t.nodes.length).filter fun i => t.edges.all fun e => !(e.1 == i)

/-- Breadth-first search for a shortest root-to-target path, modelling the
unit-weight `petgraph::algo::astar` call inside `resolve_state`.  The queue
holds reversed paths; visited nodes are marked at enqueue time.  The fuel
`t.nodes.length + 2` dominates the number of dequeues on any tree whose edges
stay inside the node arena. -/
def StateTree.bfsAux (t : StateTree) (target : Nat) :
    Nat → List (List Nat) → List Nat → Option (List Nat)
  | 0, _, _ => none
  | _ + 1, [], _ => none
  | fuel + 1, path :: queue, visited =>
      match path with
      | [] => t.bfsAux target fuel queue visited
      | cur :: _ =>
          if cur = target then some path.reverse
          else
            let next := (t.neighborsOf cur).filter fun n => !(visited.contains n)
            t.bfsAux target fuel (queue ++ next.map fun n => n :: path) (visited ++ next)

/-- Shortest path from the root, as found by the `astar` call in `resolve_state`. -/
def StateTree.shortest_path (t : StateTree) (node : Nat) : Option (List Nat) :=
  t.bfsAux node (t.nodes.length + 2) [[t.root]] [t.root]

/-- Replay of the edge transitions along a path, from the `path.windows(2)` loop
of `resolve_state`: apply each traversed edge's transition in turn; a missing
edge or a failed application yields `none` (the source logs and returns `None`;
a Rust panic during `apply` is collapsed into the same non-value). -/
def StateTree.replay (t : StateTree) : State → List Nat → Option State
  | state, a :: b :: rest =>
      (match t.find_edge a b with
       | some i =>
           match t.edges.get? i with
           | some e =>
               match e.2.2.transition.apply state with
               | .ok s2 => t.replay s2 (b :: rest)
               | _ => none
           | none => none
       | none => none)
  | state, _ => some state

/-- State reconstruction, from `StateTree::resolve_state` (lines 147-176):
replay the transitions along a shortest root-to-node path starting from the
initial state.  When no path exists the source skips the replay loop and
returns the untouched clone of the initial state. -/
def StateTree.resolve_state (t : StateTree) (node : Nat) : Option State :=
  match t.shortest_path node with
  | some path => t.replay t.initial_state path
  | none => some t.initial_state

/-- Log-application loop, from `Integrator::apply_logs` in
`statistics/integration.rs` (lines 213-254).  For each logged transition the
source FIRST calls `add_node` on the executor's current state, THEN applies the
transition to that state, then adds an edge labelled with the transition from
the previous node to the new one and advances the current node.  A failing
application aborts the trial (`?`), modelled by `none`. -/
def apply_logs (t : StateTree) (current_node : Nat) (state : State) :
    List Transition → Option (StateTree × Nat × State)
  | [] => some (t, current_node, state)
  | transition :: rest =>
      let step := t.add_node state
      match transition.apply state with
      | .ok s2 =>
          let step2 := step.1.add_edge current_node step.2 transition
          apply_logs step2.1 step.2 s2 rest
      | _ => none

/-- Hit-count tally over a list of terminal node indices, from the `for` loop of
`OutcomeConditionProbability::query` in `statistics/query.rs` (lines 61-87):
every visited terminal adds its hits to the total and, when its fully-resolved
state satisfies the condition, to the condition count.  A terminal whose state
cannot be resolved yields `none` (the source's `.unwrap()` panics there).
The recursion accumulates from the right; addition order is immaterial to
the two sums. -/
def tally_externals (t : StateTree) (cond : State → Bool) :
    List Nat → Option (Nat × Nat)
  | [] => some (0, 0)
  | idx :: rest =>
      match t.nodes.get? idx, t.resolve_state idx with
      | some node, some state =>
          (match tally_externals t cond rest with
           | some (c, tot) =>
               some ((if cond state then c + node.hits else c), tot + node.hits)
           | none => none)
      | _, _ => none

/-- Outcome-probability query, from `OutcomeConditionProbability::query`:
tally the terminal nodes and divide the condition hits by the total visited
hits, returning 0 when no hits were visited.  The `f64` division of the source
is modelled as exact rational division. -/
def outcome_condition_probability (t : StateTree) (cond : State → Bool) : Option ℚ :=
  match tally_externals t cond t.externals with
  | some (condition_hits, total_outgoing_hits) =>
      if 0 < total_outgoing_hits then
        some ((condition_hits : ℚ) / (total_outgoing_hits : ℚ))
      else some 0
  | none => none

end Statistics

namespace Simulation

/-! The arena-based state tree of `simulation/state_tree.rs` and the
transition step of `CombatContext` in `simulation/integration.rs`. -/

/-- Edge record, from `struct Edge` in `simulation/state_tree.rs`. -/
structure Edge where
  transition : Transition
  hits : Nat
  deriving DecidableEq

/-- The state tree, from `struct StateTree` in `simulation/state_tree.rs`.
`nodes` is the `Vec<NonZeroU64>` of per-node hit counters (index =
`NodeIndex`); `edge_cache` models the `BTreeMap<EdgeKey, Edge>` with the
`(source, target)` pair standing for the packed 64-bit `EdgeKey` (the packing
is injective on `u32` indices); `neighbors` is the adjacency vector.  In this
generation `add_node` DOES extend `state_cache`, so states are deduplicated. -/
structure StateTree where
  initial_state : State
  root : Nat
  nodes : List Nat
  total_node_hits : Nat
  total_edge_hits : Nat
  state_cache : List (State × Nat)
  edge_cache : List ((Nat × Nat) × Edge)
  neighbors : List (List Nat)
  deriving DecidableEq

/-- Node insertion, from `StateTree::add_node` (lines 123-142): the node-hit
total is always saturating-incremented; a cached hash has its counter
saturating-incremented, otherwise a fresh node with count 1 is appended and
cached (a prepended binding models `HashMap::insert` replacing any older one). -/
def StateTree.add_node (t0 : StateTree) (state_hash : State) : StateTree × Nat :=
  let t := { t0 with total_node_hits := u64_saturating_add_one t0.total_node_hits }
  match assocFind t.state_cache state_hash with
  | some existing_index =>
      match t.nodes.get? existing_index with
      | some hits =>
          ({ t with nodes := t.nodes.set existing_index (u64_saturating_add_one hits) },
           existing_index)
      | none =>
          ({ t with
             nodes := t.nodes ++ [1]
             state_cache := (state_hash, t.nodes.length) :: t.state_cache },
           t.nodes.length)
  | none =>
      ({ t with
         nodes := t.nodes ++ [1]
         state_cache := (state_hash, t.nodes.length) :: t.state_cache },
       t.nodes.length)

/-- Constructor, from `StateTree::new` (lines 108-121): start empty and add the
initial state's node as the root. -/
def StateTree.new (initial_state : State) : StateTree :=
  let base : StateTree :=
    { initial_state := initial_state
      root := 0
      nodes := []
      total_node_hits := 0
      total_edge_hits := 0
      state_cache := []
      edge_cache := []
      neighbors := [] }
  let step := base.add_node initial_state
  { step.1 with root := step.2 }

/-- Outcome of `StateTree::add_edge` under the debug profile: either the
updated tree with the edge key, or the `debug_assert_eq!` firing because the
stored transition differs from the new one ("Discontinuity in transition graph
detected").  In a release build the assertion compiles out; the claims about
divergence detection concern the debug profile, which this models. -/
inductive AddEdgeResult
  | ok (t : StateTree) (key : Nat × Nat)
  | assertionFailed (stored fresh : Transition)
  deriving DecidableEq

/-- Edge insertion, from `StateTree::add_edge` in `simulation/state_tree.rs`
(lines 144-182): an existing edge for the `(from, to)` key has its transition
checked by `debug_assert_eq!` against the new one and its hits (and the edge-hit
total) saturating-incremented; a fresh edge is appended with hit count 1 and
the adjacency vector is extended (resizing it when the source index is beyond
its length, as the source does). -/
def StateTree.add_edge (t : StateTree) (src dst : Nat) (transition : Transition) :
    AddEdgeResult :=
  let key := (src, dst)
  match assocFind t.edge_cache key with
  | some existing_edge =>
      if existing_edge.transition = transition then
        .ok { t with
              edge_cache := mapUpdate t.edge_cache key fun e =>
                { e with hits := u64_saturating_add_one e.hits }
              total_edge_hits := u64_saturating_add_one t.total_edge_hits } key
      else .assertionFailed existing_edge.transition transition
  | none =>
      let t1 := { t with
                  edge_cache := t.edge_cache ++ [(key, Edge.mk transition 1)]
                  total_edge_hits := u64_saturating_add_one t.total_edge_hits }
      let nbrs2 :=
        match t1.neighbors.get? src with
        | some v => t1.neighbors.set src (v ++ [dst])
        | none =>
            (t1.neighbors ++ List.replicate (src + 1 - t1.neighbors.length) []).set src [dst]
      .ok { t1 with neighbors := nbrs2 } key

/-- Outgoing neighbors in insertion order, from `StateTree::neighbors`
(`get`-then-flatten on the adjacency vector). -/
def StateTree.neighborsOf (t : StateTree) (n : Nat) : List Nat :=
  (t.neighbors.get? n).getD []

/-- Edge lookup, from `StateTree::get_edge`. -/
def StateTree.get_edge (t : StateTree) (src dst : Nat) : Option Edge :=
  assocFind t.edge_cache (src, dst)

/-- Hit-count lookup, from `StateTree::get_node_hits`. -/
def StateTree.get_node_hits (t : StateTree) (n : Nat) : Option Nat :=
  t.nodes.get? n

/-- Depth-first traversal, from `StateTree::visit_states_recursive` in
`simulation/state_tree.rs` (lines 225-267).  The result is the final visited
set together with the ordered list of `(state, hits)` pairs passed to the
visitor.  An already-visited node returns immediately; with `externals_only`
the visitor only fires at nodes without neighbors; when the visitor returns
`false` the CURRENT CALL returns — the `return` in the source leaves only this
recursion level, it does not propagate to the caller's neighbor loop.  Each
child's state is derived by applying the connecting edge's transition; a
failing application is skipped (`continue`).  The fuel argument bounds the
recursion depth; since every nested call marks a fresh node visited,
`t.nodes.length + 1` fuel is more than any tree whose edges stay in the arena
can consume. -/
def StateTree.visitRec (t : StateTree) (externals_only : Bool)
    (visitor : State → Nat → Bool) :
    Nat → Nat → State → List Nat → List Nat × List (State × Nat)
  | 0, _, _, visited => (visited, [])
  | fuel + 1, node, state, visited =>
      if visited.contains node then (visited, [])
      else
        let visited1 := node :: visited
        let should_visit := if externals_only then (t.neighborsOf node).isEmpty else true
        let hits := (t.get_node_hits node).getD 0
        let log := if should_visit then [(state, hits)] else []
        let keep_going := if should_visit then visitor state hits else true
        if keep_going then
          (t.neighborsOf node).foldl
            (fun acc nb =>
              match t.get_edge node nb with
              | some edge =>
                  (match edge.transition.apply state with
                   | .ok new_state =>
                       let r := t.visitRec externals_only visitor fuel nb new_state acc.1
                       (r.1, acc.2 ++ r.2)
                   | _ => acc)
              | none => acc)
            (visited1, log)
        else (visited1, log)

/-- Traversal entry point, from `StateTree::visit_states` (lines 212-223):
start at the root with the initial state and an empty visited set; the result
is the ordered list of `(state, hits)` pairs the visitor received. -/
def StateTree.visit_states (t : StateTree) (externals_only : Bool)
    (visitor : State → Nat → Bool) : List (State × Nat) :=
  (t.visitRec externals_only visitor (t.nodes.length + 1) t.root t.initial_state []).2

/-- One transition of a combat trial, from `CombatContext::transition` in
`simulation/integration.rs` (lines 161-193): apply the transition to the live
state FIRST, then add a node for the resulting state's hash, then an edge
labelled with the transition from the previous current node, and advance the
current node.  A failed application propagates (`?`), and a firing edge
assertion aborts; both are modelled by `none`. -/
def transition_step (t : StateTree) (current_node : Nat) (state : State)
    (transition : Transition) : Option (StateTree × Nat × State) :=
  match transition.apply state with
  | .ok s2 =>
      let step := t.add_node s2
      (match step.1.add_edge current_node step.2 transition with
       | .ok t2 _ => some (t2, step.2, s2)
       | .assertionFailed _ _ => none)
  | _ => none

/-- Sequence of `CombatContext::transition` calls over a list of transitions,
as issued by `CombatContext::run_combat`. -/
def run_transitions (t : StateTree) (current_node : Nat) (state : State) :
    List Transition → Option (StateTree × Nat × State)
  | [] => some (t, current_node, state)
  | transition :: rest =>
      match transition_step t current_node state transition with
      | some r => run_transitions r.1 r.2.1 r.2.2 rest
      | none => none

end Simulation

/-! Concrete fixtures used to evaluate the embedded code on explicit inputs. -/

/-- A minimal actor: id 1, ally group 1, 10 hit points, default stats. -/
def exActor : Actor :=
  { id := 1, group := 1, max_health := 10, health := 10, stats := Stats.default,
    initiative := none, action_economy := ActionEconomy.default }

/-- A minimal combat state holding only `exActor`. -/
def exState : State :=
  { turn := 0, actors := [(1, exActor)], initiative_order := [],
    current_turn_index := none }

/-- The two-transition trial log `[BeginCombat, InitiativeRoll {actor 1, roll 5}]`. -/
def exLog : List Transition := [Transition.beginCombat, Transition.initiativeRoll 1 5]

/-- Feeding the trial log through `Integrator::apply_logs` (statistics generation),
starting at a fresh tree's root with the initial state. -/
def c1run : Option (Statistics.StateTree × Nat × State) :=
  Statistics.apply_logs (Statistics.StateTree.new exState) 0 exState exLog

/-- Feeding the same trial log through `CombatContext::transition` (simulation
generation), which applies the transition before hashing the resulting state. -/
def c1simRun : Option (Simulation.StateTree × Nat × State) :=
  Simulation.run_transitions (Simulation.StateTree.new exState) 0 exState exLog

/-- A second distinct state, used as the target node of a test edge. -/
def exState5 : State := { exState with turn := 5 }

/-- Statistics tree with nodes for `exState` (root) and `exState5`. -/
def c2added : Statistics.StateTree × Nat :=
  (Statistics.StateTree.new exState).add_node exState5

/-- The node index of `exState5` in `c2tree`. -/
def c2node : Nat := c2added.2

/-- Statistics tree with one edge `(root, c2node)` labelled `BeginCombat`. -/
def c2tree : Statistics.StateTree :=
  (c2added.1.add_edge 0 c2node Transition.beginCombat).1

/-- Simulation tree with nodes for `exState` (root) and `exState5`. -/
def c2simAdded : Simulation.StateTree × Nat :=
  (Simulation.StateTree.new exState).add_node exState5

/-- The node index of `exState5` in `c2simTree`. -/
def c2simNode : Nat := c2simAdded.2

/-- Simulation tree with one edge `(root, c2simNode)` labelled `BeginCombat`. -/
def c2simTree : Simulation.StateTree :=
  match c2simAdded.1.add_edge 0 c2simNode Transition.beginCombat with
  | .ok t _ => t
  | .assertionFailed _ _ => c2simAdded.1

/-- An actor of a second ally group that is dead: health −7 with 7 max health. -/
def deadGoblin : Actor :=
  { id := 2, group := 2, max_health := 7, health := -7, stats := Stats.default,
    initiative := none, action_economy := ActionEconomy.default }

/-- A state where group 1 has a living member and every member of group 2 is dead. -/
def c4state : State :=
  { turn := 0, actors := [(1, exActor), (2, deadGoblin)], initiative_order := [],
    current_turn_index := none }

/-- A plain 2d20 roll plan with default settings. -/
def c5plan : RollPlan :=
  { num_dice := 2, die_size := 20, modifier := 0, settings := RollSettings.default }

/-- A sample sequence whose first die shows 20 and whose others show 3. -/
def c5samples : Nat → Nat := fun i => if i = 0 then 20 else 3

/-- The result `roll_normal` produces for `c5plan` under `c5samples`. -/
def c5result : RollResult := ⟨23, [20, 3], Critical.success, c5plan⟩

/-- A two-actor state: actor 1 with no recorded initiative, actor 2 with roll 12. -/
def c6state : State :=
  { turn := 0,
    actors := [(1, exActor),
               (2, { deadGoblin with health := 7, initiative := some 12 })],
    initiative_order := [], current_turn_index := none }

/-- The state produced by applying `InitiativeRoll {actor 1, roll 5}` to `c6state`. -/
def c6after : State :=
  match (Transition.initiativeRoll 1 5).apply c6state with
  | .ok s => s
  | _ => c6state

/-- A fresh one-node statistics tree over `exState`; its root is terminal. -/
def c7tree : Statistics.StateTree := Statistics.StateTree.new exState

/-- The state reached from `exState` by 1 point of damage to actor 1. -/
def c8sA : State :=
  match (Transition.healthModification 1 (-1)).apply exState with
  | .ok s => s
  | _ => exState

/-- The state reached from `exState` by 2 points of damage to actor 1. -/
def c8sB : State :=
  match (Transition.healthModification 1 (-2)).apply exState with
  | .ok s => s
  | _ => exState

/-- A simulation tree with root `exState` and two child leaves `c8sA`, `c8sB`,
built through `add_node`/`add_edge` exactly as a trial would build it. -/
def c8tree : Simulation.StateTree :=
  let t := Simulation.StateTree.new exState
  let a := t.add_node c8sA
  let t1 :=
    match a.1.add_edge 0 a.2 (Transition.healthModification 1 (-1)) with
    | .ok t _ => t
    | .assertionFailed _ _ => a.1
  let b := t1.add_node c8sB
  match b.1.add_edge 0 b.2 (Transition.healthModification 1 (-2)) with
  | .ok t _ => t
  | .assertionFailed _ _ => b.1

/-- A visitor that early-terminates (returns `false`) exactly at the state where
actor 1 has 9 hit points, i.e. at `c8sA`. -/
def stopAtNine (st : State) (_hits : Nat) : Bool :=
  !(match assocFind st.actors 1 with
    | some a => a.health == 9
    | none => false)

/-- A state mid-combat: turn index 0 into a one-entry initiative order. -/
def c9state : State :=
  { turn := 0, actors := [(1, exActor)], initiative_order := [1],
    current_turn_index := some 0 }

/-- The recorded initiative value the recomputed order sorts by: the actor's
initiative with `unwrap_or(0)`, and 0 for an id absent from the state. -/
def State.initiative_value (s : State) (id : Nat) : Int :=
  match assocFind s.actors id with
  | some a => a.initiative.getD 0
  | none => 0

/-! Helper lemmas about the association-list map model. -/

theorem assocFind_mapUpdate {α β : Type} [DecidableEq α] (l : List (α × β)) (k : α)
    (f : β → β) : assocFind (mapUpdate l k f) k = (assocFind l k).map f := by
  induction l with
  | nil => rfl
  | cons p rest ih =>
      by_cases h : p.1 = k
      · simp [mapUpdate, assocFind, h]
      · simp only [mapUpdate, List.map_cons, if_neg h]
        simp only [assocFind, if_neg h]
        simpa [mapUpdate] using ih

theorem mapUpdate_keys {α β : Type} [DecidableEq α] (l : List (α × β)) (k : α)
    (f : β → β) : (mapUpdate l k f).map Prod.fst = l.map Prod.fst := by
  unfold mapUpdate
  rw [List.map_map]
  apply List.map_congr_left
  intro p _
  by_cases h : p.1 = k <;> simp [h]

theorem assocFind_isSome_iff {α β : Type} [DecidableEq α] (l : List (α × β)) (k : α) :
    (assocFind l k).isSome = true ↔ k ∈ l.map Prod.fst := by
  induction l with
  | nil => simp [assocFind]
  | cons p rest ih =>
      by_cases h : p.1 = k
      · simp [assocFind, h]
      · simp only [assocFind, if_neg h, List.map_cons, List.mem_cons]
        rw [ih]
        constructor
        · exact fun hm => Or.inr hm
        · rintro (hm | hm)
          · exact absurd hm.symm h
          · exact hm

theorem assocFind_of_nodup_mem {α β : Type} [DecidableEq α] {l : List (α × β)} {k : α}
    {b : β} (hnd : (l.map Prod.fst).Nodup) (hmem : (k, b) ∈ l) :
    assocFind l k = some b := by
  induction l with
  | nil => cases hmem
  | cons p rest ih =>
      rw [List.map_cons, List.nodup_cons] at hnd
      rcases List.mem_cons.mp hmem with h | h
      · cases h
        simp [assocFind]
      · have hk : k ∈ rest.map Prod.fst := List.mem_map.mpr ⟨(k, b), h, rfl⟩
        have hne : p.1 ≠ k := fun e => hnd.1 (e ▸ hk)
        simp only [assocFind, if_neg hne]
        exact ih hnd.2 h

/-! Helper lemmas about the insertion-sort model of `sort_by`. -/

theorem insertDesc_perm {α : Type} (le : α → α → Bool) (x : α) (l : List α) :
    (insertDesc le x l).Perm (x :: l) := by
  induction l with
  | nil => exact List.Perm.refl _
  | cons y ys ih =>
      unfold insertDesc
      by_cases h : le x y
      · rw [if_pos h]
      · rw [if_neg h]
        exact (ih.cons y).trans (List.Perm.swap x y ys)

theorem sortBy_perm {α : Type} (le : α → α → Bool) (l : List α) :
    (sortBy le l).Perm l := by
  induction l with
  | nil => exact List.Perm.refl _
  | cons x xs ih => exact (insertDesc_perm le x (sortBy le xs)).trans (ih.cons x)

theorem pairwise_insertDesc {α : Type} {le : α → α → Bool}
    (htrans : ∀ a b c, le a b = true → le b c = true → le a c = true)
    (htot : ∀ a b, le a b = true ∨ le b a = true)
    (x : α) {l : List α} (hl : l.Pairwise (le · · = true)) :
    (insertDesc le x l).Pairwise (le · · = true) := by
  induction l with
  | nil => simp [insertDesc]
  | cons y ys ih =>
      rw [List.pairwise_cons] at hl
      unfold insertDesc
      by_cases h : le x y
      · rw [if_pos h]
        refine List.pairwise_cons.mpr ⟨?_, List.pairwise_cons.mpr hl⟩
        intro z hz
        rcases List.mem_cons.mp hz with rfl | hz'
        · exact h
        · exact htrans x y z h (hl.1 z hz')
      · rw [if_neg h]
        have hyx : le y x = true := (htot x y).resolve_left (by simpa using h)
        refine List.pairwise_cons.mpr ⟨?_, ih hl.2⟩
        intro z hz
        have hz' : z ∈ x :: ys := (insertDesc_perm le x ys).mem_iff.mp hz
        rcases List.mem_cons.mp hz' with rfl | hz''
        · exact hyx
        · exact hl.1 z hz''

theorem pairwise_sortBy {α : Type} {le : α → α → Bool}
    (htrans : ∀ a b c, le a b = true → le b c = true → le a c = true)
    (htot : ∀ a b, le a b = true ∨ le b a = true) (l : List α) :
    (sortBy le l).Pairwise (le · · = true) := by
  induction l with
  | nil => simp [sortBy]
  | cons x xs ih => exact pairwise_insertDesc htrans htot x ih

/-!
C1.  Replay-correctness of the state tree against the integrator.

The `CombatContext::transition` driver (`simulation/integration.rs` lines
161-193) applies the transition to the live state before hashing it into a
node, so each edge labelled `T` points to the node of the post-`T` state and
replaying edges reproduces the executor's states.  The `Integrator::apply_logs`
driver (`statistics/integration.rs` lines 213-254) calls `add_node` on the
executor state BEFORE applying the transition: the edge labelled `T` enters the
node hashed from the pre-`T` state.  Replaying the stored edge transitions from
the root therefore yields a state shifted by one transition, breaking the
replay-correctness law the specification states and `resolve_state` /
`OutcomeConditionProbability` rely on.
-/

/-- C1 (code bug, witnessed failure): after driving the two-transition trial
`exLog` through the statistics `Integrator::apply_logs`, replaying the tree's
edge transitions from the root to the trial's current node
(`StateTree::resolve_state`) does NOT reproduce the executor's state: the
replay applies `InitiativeRoll` directly to the initial state and misses
`BeginCombat` (its `current_turn_index` is still `None` instead of `Some 0`). -/
theorem c1_apply_logs_breaks_replay :
    c1run.isSome = true
    ∧ (c1run.bind fun r => r.1.resolve_state r.2.1) ≠ (c1run.map fun r => r.2.2) := by
  constructor
  · decide
  · decide

/-- Supporting evidence of intent for C1: driving the same trial log through
the apply-first `CombatContext::transition` keeps node and state in step — the
node the trial ends on is exactly the node cached for the executor's final
state. -/
theorem c1_transition_order_keeps_correspondence :
    (c1simRun.bind fun r => assocFind r.1.state_cache r.2.2)
      = (c1simRun.map fun r => r.2.1) := by
  decide

/-!
C2.  Divergent transitions on an existing edge.

Both tree generations increment the existing edge's hit counter instead of
creating a parallel edge.  The simulation-generation `add_edge`
(`simulation/state_tree.rs` lines 144-182) guards the increment with
`debug_assert_eq!` on the stored transition; the statistics-generation
`add_edge` (`statistics/state_tree.rs` lines 94-119) never compares the stored
transition with the new one, so a divergent transition is silently accepted —
the stored edge keeps the old transition and its counter is incremented as if
the transitions had matched.
-/

/-- C2 (code bug, witnessed failure): re-adding the `(root, c2node)` edge with
the equal transition only increments the hit counter and never duplicates the
edge in either generation; but re-adding it with a DIFFERENT transition is
silently accepted by the statistics `StateTree::add_edge` (hit counter bumped
to 2, stored transition still `BeginCombat`, existing edge index returned, no
error), while the simulation generation's `debug_assert_eq!` detects it. -/
theorem c2_add_edge_divergence_detection :
    ((c2tree.add_edge 0 c2node Transition.beginCombat).1.edges.map fun e => e.2.2.hits) = [2]
    ∧ ((c2tree.add_edge 0 c2node Transition.endCombat).1.edges.map fun e => e.2.2.hits) = [2]
    ∧ ((c2tree.add_edge 0 c2node Transition.endCombat).1.edges.map fun e => e.2.2.transition)
        = [Transition.beginCombat]
    ∧ (c2tree.add_edge 0 c2node Transition.endCombat).2 = some 0
    ∧ c2simTree.add_edge 0 c2simNode Transition.endCombat
        = Simulation.AddEdgeResult.assertionFailed Transition.beginCombat Transition.endCombat := by
  refine ⟨?_, ?_, ?_, ?_, ?_⟩ <;> decide

/-!
C3.  When `Transition::apply` fails.

Every arm of `Transition::apply` that references an actor guards the mutation
with `if let Some(actor) = state.actors.get_mut(..)`: a missing actor is
silently skipped and the arm still returns `Ok(())`.  The only returned error
is `ActionEconomy::use_action` rejecting an already-consumed slot, which
requires the target to EXIST.  So, contrary to the claim, `apply` never fails
on a missing actor.
-/

/-- C3 counterexample: applying a `HealthModification` (and an
`ActionEconomyUsed`) whose target actor 99 does not exist in the state
SUCCEEDS and leaves the state unchanged, although the claim requires `apply`
to fail whenever the referenced actor no longer exists. -/
theorem c3_missing_actor_is_silently_ignored :
    assocFind exState.actors 99 = none
    ∧ (Transition.healthModification 99 (-5)).apply exState = ApplyResult.ok exState
    ∧ (Transition.actionEconomyUsed 99 ActionEconomyUsage.action).apply exState
        = ApplyResult.ok exState := by
  refine ⟨?_, ?_, ?_⟩ <;> decide

/-- C3 (amended): `Transition::apply` returns a failure if and only if the
transition is an `ActionEconomyUsed` whose target EXISTS in the state and whose
action-economy slot was already consumed; in every other case — including every
transition referencing a missing actor, which is silently ignored — no error is
returned. -/
theorem c3_apply_fails_iff_slot_already_used (t : Transition) (s : State) :
    (t.apply s).isErr = true
    ↔ ∃ target usage a, t = Transition.actionEconomyUsed target usage
        ∧ assocFind s.actors target = some a
        ∧ a.action_economy.can_take_action usage = false := by
  cases t with
  | root => simp [Transition.apply, ApplyResult.isErr]
  | beginCombat => simp [Transition.apply, ApplyResult.isErr]
  | endCombat => simp [Transition.apply, ApplyResult.isErr]
  | initiativeRoll actor roll => simp [Transition.apply, ApplyResult.isErr]
  | beginTurn actor => simp [Transition.apply, ApplyResult.isErr]
  | endTurn actor => simp [Transition.apply, ApplyResult.isErr]
  | advanceInitiative =>
      cases hidx : s.current_turn_index with
      | none => simp [Transition.apply, hidx, ApplyResult.isErr]
      | some i =>
          by_cases hlen : s.initiative_order.length = 0
          · simp [Transition.apply, hidx, hlen, ApplyResult.isErr]
          · simp [Transition.apply, hidx, hlen, ApplyResult.isErr]
  | healthModification target delta => simp [Transition.apply, ApplyResult.isErr]
  | statModification target stat delta => simp [Transition.apply, ApplyResult.isErr]
  | actionEconomyUsed target usage =>
      simp only [Transition.apply]
      cases hfind : assocFind s.actors target with
      | none =>
          simp only [ApplyResult.isErr]
          constructor
          · intro h; simp at h
          · rintro ⟨target1, usage1, a, heq, hfind1, -⟩
            injection heq with h1 h2
            subst h1
            rw [hfind] at hfind1
            cases hfind1
      | some a =>
          cases usage with
          | action =>
              by_cases hu : a.action_economy.action_used
              · simp only [ActionEconomy.use_action, if_pos hu, ApplyResult.isErr]
                constructor
                · intro _
                  exact ⟨target, ActionEconomyUsage.action, a, rfl, hfind,
                    by simp [ActionEconomy.can_take_action, hu]⟩
                · intro _; trivial
              · simp only [ActionEconomy.use_action, if_neg hu, ApplyResult.isErr]
                constructor
                · intro h; simp at h
                · rintro ⟨target1, usage1, a1, heq, hfind1, hcan⟩
                  injection heq with h1 h2
                  subst h1
                  subst h2
                  rw [hfind] at hfind1
                  cases hfind1
                  simp [ActionEconomy.can_take_action, hu] at hcan
          | bonusAction =>
              by_cases hu : a.action_economy.bonus_action_used
              · simp only [ActionEconomy.use_action, if_pos hu, ApplyResult.isErr]
                constructor
                · intro _
                  exact ⟨target, ActionEconomyUsage.bonusAction, a, rfl, hfind,
                    by simp [ActionEconomy.can_take_action, hu]⟩
                · intro _; trivial
              · simp only [ActionEconomy.use_action, if_neg hu, ApplyResult.isErr]
                constructor
                · intro h; simp at h
                · rintro ⟨target1, usage1, a1, heq, hfind1, hcan⟩
                  injection heq with h1 h2
                  subst h1
                  subst h2
                  rw [hfind] at hfind1
                  cases hfind1
                  simp [ActionEconomy.can_take_action, hu] at hcan

/-!
C4.  The combat-loop exit test.

The `antikythera` crate's `State::is_combat_over` (`simulation/state.rs` lines
102-114) counts the distinct `group` values over ALL actors, alive or dead, so
a group whose members are all dead still keeps combat running, contradicting
the claim (and the older `src/src/simulation/state.rs::is_combat_over`, which
counts only groups with a living member, and the crate's own use of the test as
the `run_combat` loop condition, which then never exits such an encounter).
-/

/-- C4 (code bug, witnessed failure): in `c4state` the only member of group 2
is dead, so exactly one allied group still has a living member and the claim
requires `is_combat_over = true`; the code nevertheless reports `false`
because it counts the groups of dead actors too. -/
theorem c4_is_combat_over_counts_dead_groups :
    c4state.is_combat_over = false
    ∧ c4state.living_group_count = 1
    ∧ deadGoblin.is_alive = false := by
  refine ⟨?_, ?_, ?_⟩ <;> decide

/-!
C9.  The one panic site of `Transition::apply`.

Under release-profile arithmetic the only panic in `Transition::apply` is the
`(current_index + 1) % initiative_order.len()` division in the
`AdvanceInitiative` arm when the initiative order is empty and a current index
is set.  The combat loop makes that state unreachable: `advance_turn` returns
before emitting `AdvanceInitiative` whenever `initiative_order.is_empty()`.
-/

/-- C9: `Transition::apply` never panics provided that whenever the transition
is `AdvanceInitiative` and the state carries a current turn index, the
initiative order is non-empty — the precondition the combat loop establishes. -/
theorem c9_apply_total_under_precondition (t : Transition) (s : State)
    (h : t = Transition.advanceInitiative →
      ∀ i, s.current_turn_index = some i → s.initiative_order ≠ []) :
    t.apply s ≠ ApplyResult.panic := by
  cases t with
  | advanceInitiative =>
      cases hidx : s.current_turn_index with
      | none => simp [Transition.apply, hidx]
      | some i =>
          have hne := h rfl i hidx
          have hlen : s.initiative_order.length ≠ 0 := by
            simpa [List.length_eq_zero] using hne
          simp [Transition.apply, hidx, hlen]
  | root => simp [Transition.apply]
  | beginCombat => simp [Transition.apply]
  | endCombat => simp [Transition.apply]
  | initiativeRoll actor roll => simp [Transition.apply]
  | beginTurn actor => simp [Transition.apply]
  | endTurn actor => simp [Transition.apply]
  | healthModification target delta => simp [Transition.apply]
  | statModification target stat delta => simp [Transition.apply]
  | actionEconomyUsed target usage =>
      cases hfind : assocFind s.actors target with
      | none => simp [Transition.apply, hfind]
      | some actor =>
          cases hu : actor.action_economy.use_action usage with
          | error e => simp [Transition.apply, hfind, hu]
          | ok ae => simp [Transition.apply, hfind, hu]

/-- C9 witness: the mid-combat state `c9state` (turn index 0, one-entry
initiative order) satisfies the precondition and `AdvanceInitiative` applies
without panicking; the empty-order/indexed state, by contrast, is exactly the
panic branch. -/
theorem c9_apply_total_under_precondition_witness :
    Transition.advanceInitiative.apply c9state ≠ ApplyResult.panic
    ∧ Transition.advanceInitiative.apply
        { c9state with initiative_order := [] } = ApplyResult.panic :=
  ⟨c9_apply_total_under_precondition Transition.advanceInitiative c9state
      (by intro _ i _; decide),
   by decide⟩

/-!
C10.  Signed delta applied to an unsigned stat.

The `StatModification` arm executes `*actor.stats.get_mut(stat) += delta as
u32` — the `i32` delta is cast to `u32` (value modulo `2 ^ 32`) and added with
wrap-around `u32` arithmetic (release profile; the debug profile panics on the
overflow instead).  The `HealthModification` arm adds the same `i32` delta to
the `i32` health with ordinary signed arithmetic.
-/

/-- C10: for an existing target actor, `StatModification` sets the stat to
`(old + (delta mod 2 ^ 32)) mod 2 ^ 32` — wrap-around unsigned arithmetic, not
signed subtraction — while `HealthModification` adds the delta as a signed
value to health. -/
theorem c10_stat_modification_wraps_unsigned (s : State) (target : Nat)
    (stat : Stat) (delta : Int) (a : Actor)
    (h : assocFind s.actors target = some a) :
    (∃ s1, (Transition.statModification target stat delta).apply s = ApplyResult.ok s1
        ∧ assocFind s1.actors target = some { a with stats := a.stats.set stat ((a.stats.get stat + ((delta % 2 ^ 32).toNat)) % 2 ^ 32) })
    ∧ ∃ s2, (Transition.healthModification target delta).apply s = ApplyResult.ok s2
        ∧ assocFind s2.actors target = some { a with health := a.health + delta } := by
  constructor
  · refine ⟨_, rfl, ?_⟩
    have hfu := assocFind_mapUpdate s.actors target
      (fun a => { a with stats := a.stats.set stat (u32_wrapping_add (a.stats.get stat) (i32_as_u32 delta)) })
    rw [h] at hfu
    simpa [u32_wrapping_add, i32_as_u32] using hfu
  · refine ⟨_, rfl, ?_⟩
    have hfu := assocFind_mapUpdate s.actors target (fun a => { a with health := a.health + delta })
    rw [h] at hfu
    simpa using hfu

/-- C10 witness: applying `StatModification {delta := -20}` to `exActor`'s
strength 10 wraps to `2 ^ 32 - 10 = 4294967286` instead of subtracting, while
`HealthModification {delta := -20}` takes the signed health from 10 to -10. -/
theorem c10_stat_modification_wraps_unsigned_witness :
    ((∃ s1, (Transition.statModification 1 Stat.strength (-20)).apply exState
          = ApplyResult.ok s1
        ∧ assocFind s1.actors 1 = some { exActor with stats := exActor.stats.set Stat.strength ((exActor.stats.get Stat.strength + (((-20 : Int) % 2 ^ 32).toNat)) % 2 ^ 32) })
      ∧ ∃ s2, (Transition.healthModification 1 (-20)).apply exState = ApplyResult.ok s2
          ∧ assocFind s2.actors 1 = some { exActor with health := exActor.health + (-20) })
    ∧ (exActor.stats.get Stat.strength + (((-20 : Int) % 2 ^ 32).toNat)) % 2 ^ 32
        = 4294967286
    ∧ exActor.health + (-20) = -10 :=
  ⟨c10_stat_modification_wraps_unsigned exState 1 Stat.strength (-20) exActor (by decide),
   by decide, by decide⟩

/-!
C8.  Early termination of `visit_states`.

In `visit_states_recursive` a visitor returning `false` triggers a plain
`return` (`if !keep_going { return; }`), which leaves only the CURRENT
recursion level: the node's own neighbors are not entered, but the caller's
`for neighbor in ...` loop continues, so sibling subtrees are still visited.
The claim that the whole traversal terminates is refuted on a three-node tree;
the amended statement — the call at the rejecting node contributes exactly its
own visit and descends into none of its neighbors — holds generally.
-/

/-- C8 counterexample: in `c8tree` (root with two leaf children) the visitor
`stopAtNine` returns `false` at the first child's state `c8sA`, yet the visit
log still contains the sibling leaf `c8sB` afterward — the traversal did NOT
terminate at that point as the claim requires. -/
theorem c8_sibling_visited_after_false :
    stopAtNine c8sA 1 = false
    ∧ c8tree.visit_states false stopAtNine = [(exState, 1), (c8sA, 1), (c8sB, 1)] := by
  refine ⟨?_, ?_⟩ <;> decide

/-- C8 (amended): when the visitor fires at a node (not yet visited, and
passing the externals-only filter) and returns `false`, that recursive call of
`visit_states_recursive` returns immediately after the single visit: it marks
the node visited, logs exactly that one `(state, hits)` pair, and descends into
none of the node's neighbors.  Only the current subtree is pruned — the
enclosing traversal proceeds (see `c8_sibling_visited_after_false`). -/
theorem c8_visitor_false_prunes_current_call_only (t : Simulation.StateTree)
    (externals_only : Bool) (visitor : State → Nat → Bool) (fuel node : Nat)
    (state : State) (visited : List Nat)
    (hmem : visited.contains node = false)
    (hsv : (if externals_only then (t.neighborsOf node).isEmpty else true) = true)
    (hf : visitor state ((t.get_node_hits node).getD 0) = false) :
    t.visitRec externals_only visitor (fuel + 1) node state visited
      = (node :: visited, [(state, (t.get_node_hits node).getD 0)]) := by
  unfold Simulation.StateTree.visitRec
  simp [hmem, hsv, hf]
  simpa using hmem

/-- C8 amended-claim witness: at node 1 of `c8tree` (state `c8sA`, not yet
visited, `externals_only = false`) the rejecting visitor makes the call return
with exactly the one logged visit. -/
theorem c8_visitor_false_prunes_current_call_only_witness :
    ([0].contains 1 = false)
    ∧ ((if false then (c8tree.neighborsOf 1).isEmpty else true) = true)
    ∧ stopAtNine c8sA ((c8tree.get_node_hits 1).getD 0) = false
    ∧ c8tree.visitRec false stopAtNine (4 + 1) 1 c8sA [0]
        = (1 :: [0], [(c8sA, (c8tree.get_node_hits 1).getD 0)]) :=
  ⟨by decide, by decide, by decide,
   c8_visitor_false_prunes_current_call_only c8tree false stopAtNine 4 1 c8sA [0]
     (by decide) (by decide) (by decide)⟩

/-!
C5.  Criticality of normal-mode rolls and the DC check.

`roll_normal` counts clamped faces equal to 20 and 1 only when the die is a
d20; the majority of those counts fixes the overall criticality, with ties
(including zero-zero) yielding none.  `meets_dc` short-circuits on criticality
and otherwise compares the total against the DC.
-/

theorem crit_chain_spec (a b : Nat) :
    ((if a > b then Critical.success
      else if b > a then Critical.failure else Critical.none) = Critical.success ↔ b < a)
    ∧ ((if a > b then Critical.success
        else if b > a then Critical.failure else Critical.none) = Critical.failure ↔ a < b)
    ∧ ((if a > b then Critical.success
        else if b > a then Critical.failure else Critical.none) = Critical.none ↔ a = b) := by
  rcases Nat.lt_trichotomy a b with h | h | h
  · have h1 : ¬ a > b := by omega
    refine ⟨?_, ?_, ?_⟩ <;> simp [h1, h] <;> omega
  · subst h
    refine ⟨?_, ?_, ?_⟩ <;> simp [Nat.lt_irrefl]
  · refine ⟨?_, ?_, ?_⟩ <;> simp [h] <;> omega

/-- C5: for every normal-mode roll that returns a result, (1) a non-`None`
criticality forces a twenty-sided die; (2) on a d20 the result is a critical
success exactly when recorded faces equal to 20 outnumber faces equal to 1, a
critical failure exactly in the mirrored case, and no criticality exactly on
equal counts; and (3) `meets_dc` is true on a critical success, false on a
critical failure, and otherwise compares `total ≥ dc`. -/
theorem c5_roll_normal_crit_majority (plan : RollPlan) (samples : Nat → Nat)
    (res : RollResult) (h : plan.roll_normal samples = some res) :
    (res.critical ≠ Critical.none → plan.die_size = 20)
    ∧ (plan.die_size = 20 →
        ((res.critical = Critical.success
            ↔ res.individual_rolls.count 1 < res.individual_rolls.count 20)
         ∧ (res.critical = Critical.failure
            ↔ res.individual_rolls.count 20 < res.individual_rolls.count 1)
         ∧ (res.critical = Critical.none
            ↔ res.individual_rolls.count 20 = res.individual_rolls.count 1)))
    ∧ (∀ dc : Int,
        (res.critical = Critical.success → res.meets_dc dc = true)
        ∧ (res.critical = Critical.failure → res.meets_dc dc = false)
        ∧ (res.critical = Critical.none → res.meets_dc dc = decide (res.total ≥ dc))) := by
  have hmeets : ∀ dc : Int,
      (res.critical = Critical.success → res.meets_dc dc = true)
      ∧ (res.critical = Critical.failure → res.meets_dc dc = false)
      ∧ (res.critical = Critical.none → res.meets_dc dc = decide (res.total ≥ dc)) := by
    intro dc
    refine ⟨?_, ?_, ?_⟩ <;> intro hc <;> simp [RollResult.meets_dc, hc]
  simp only [RollPlan.roll_normal] at h
  by_cases hbad : plan.num_dice ≠ 0 ∧
      plan.settings.maximum_die_value.getD plan.die_size < plan.settings.minimum_die_value.getD 1
  · rw [if_pos hbad] at h
    exact absurd h (by simp)
  · rw [if_neg hbad] at h
    rw [Option.some.injEq] at h
    subst h
    refine ⟨?_, ?_, hmeets⟩
    · intro hc
      by_contra h20
      apply hc
      simp [h20]
    · intro h20
      rw [h20]
      rw [if_pos (rfl : (20 : Nat) = 20)]
      rw [if_pos (rfl : (20 : Nat) = 20)]
      exact ⟨(crit_chain_spec _ _).1, (crit_chain_spec _ _).2.1, (crit_chain_spec _ _).2.2⟩

/-- C5 witness: the plain 2d20 plan under samples `[20, 3]` rolls a result with
one 20-face and no 1-face — a critical success with total 23 that meets any DC. -/
theorem c5_roll_normal_crit_majority_witness :
    (c5result.critical ≠ Critical.none → c5plan.die_size = 20)
    ∧ (c5plan.die_size = 20 →
        ((c5result.critical = Critical.success
            ↔ c5result.individual_rolls.count 1 < c5result.individual_rolls.count 20)
         ∧ (c5result.critical = Critical.failure
            ↔ c5result.individual_rolls.count 20 < c5result.individual_rolls.count 1)
         ∧ (c5result.critical = Critical.none
            ↔ c5result.individual_rolls.count 20 = c5result.individual_rolls.count 1)))
    ∧ (∀ dc : Int,
        (c5result.critical = Critical.success → c5result.meets_dc dc = true)
        ∧ (c5result.critical = Critical.failure → c5result.meets_dc dc = false)
        ∧ (c5result.critical = Critical.none → c5result.meets_dc dc = decide (c5result.total ≥ dc))) :=
  c5_roll_normal_crit_majority c5plan c5samples c5result (by decide)

/-!
C6.  `InitiativeRoll` recomputes the full initiative order.

The `InitiativeRoll` arm records the roll on the actor (if present), rebuilds
`(id, initiative.unwrap_or(0))` pairs from the whole actor map, stable-sorts
them by descending value, and installs the projected ids as the new order.
-/

/-- C6: applying `InitiativeRoll` to a state with distinct actor ids yields an
initiative order that contains each actor of the state exactly once (count 1
for present ids, 0 for absent ones) and is ordered by descending recorded
initiative value, an unset initiative counting as 0. -/
theorem c6_initiative_roll_recomputes_order (s : State) (actor : Nat) (roll : Int)
    (s' : State) (hnd : (s.actors.map Prod.fst).Nodup)
    (h : (Transition.initiativeRoll actor roll).apply s = ApplyResult.ok s') :
    (∀ id : Nat, s'.initiative_order.count id
        = if (assocFind s'.actors id).isSome then 1 else 0)
    ∧ s'.initiative_order.Pairwise
        (fun a b => s'.initiative_value b ≤ s'.initiative_value a) := by
  simp only [Transition.apply] at h
  rw [ApplyResult.ok.injEq] at h
  subst h
  have hkeys : (mapUpdate s.actors actor
      (fun a => { a with initiative := some roll })).map Prod.fst
      = s.actors.map Prod.fst := mapUpdate_keys s.actors actor _
  have hndA : ((mapUpdate s.actors actor
      (fun a => { a with initiative := some roll })).map Prod.fst).Nodup := by
    rw [hkeys]; exact hnd
  set A := mapUpdate s.actors actor (fun a => { a with initiative := some roll }) with hA
  set I := A.map (fun p => (p.1, p.2.initiative.getD 0)) with hI
  set SS := sortBy (fun a b => decide (b.2 ≤ a.2)) I with hSS
  have hperm : SS.Perm I := sortBy_perm _ _
  have hpermIds : (SS.map Prod.fst).Perm (A.map Prod.fst) := by
    have h1 := hperm.map Prod.fst
    rw [hI, List.map_map] at h1
    exact h1
  have hval : ∀ p ∈ SS, p.2
      = State.initiative_value { s with actors := A, initiative_order := SS.map Prod.fst } p.1 := by
    intro p hp
    have hpI : p ∈ I := hperm.mem_iff.mp hp
    rw [hI] at hpI
    obtain ⟨q, hqA, rfl⟩ := List.mem_map.mp hpI
    have hfq : assocFind A q.1 = some q.2 := assocFind_of_nodup_mem hndA hqA
    simp [State.initiative_value, hfq]
  constructor
  · intro id
    show (SS.map Prod.fst).count id = _
    rw [hpermIds.count_eq]
    by_cases hm : id ∈ A.map Prod.fst
    · rw [List.count_eq_one_of_mem hndA hm]
      rw [if_pos ((assocFind_isSome_iff A id).mpr hm)]
    · rw [List.count_eq_zero_of_not_mem hm]
      rw [if_neg (fun hs => hm ((assocFind_isSome_iff A id).mp hs))]
  · have hsorted : SS.Pairwise (fun a b => (fun a b => decide (b.2 ≤ a.2)) a b = true) := by
      apply pairwise_sortBy
      · intro a b c h1 h2
        simp only [decide_eq_true_eq] at h1 h2 ⊢
        exact le_trans h2 h1
      · intro a b
        rcases le_total b.2 a.2 with hab | hab
        · exact Or.inl (decide_eq_true hab)
        · exact Or.inr (decide_eq_true hab)
    show (SS.map Prod.fst).Pairwise _
    rw [List.pairwise_map]
    refine hsorted.imp_of_mem ?_
    intro a b ha hb hr
    have hva := hval a ha
    have hvb := hval b hb
    simp only [decide_eq_true_eq] at hr
    rw [← hva, ← hvb]
    exact hr

/-- C6 witness: rolling initiative 5 for actor 1 in the two-actor state
`c6state` (actor 2 already at initiative 12) yields an order counting each
actor once and sorted by descending recorded value. -/
theorem c6_initiative_roll_recomputes_order_witness :
    (c6state.actors.map Prod.fst).Nodup
    ∧ (c6after.initiative_order.count 1
        = if (assocFind c6after.actors 1).isSome then 1 else 0)
    ∧ (c6after.initiative_order.count 2
        = if (assocFind c6after.actors 2).isSome then 1 else 0)
    ∧ c6after.initiative_order.Pairwise
        (fun a b => c6after.initiative_value b ≤ c6after.initiative_value a) :=
  have h := c6_initiative_roll_recomputes_order c6state 1 5 c6after (by decide) (by decide)
  ⟨by decide, h.1 1, h.1 2, h.2⟩

/-!
C7.  The outcome-probability query.

`OutcomeConditionProbability::query` walks the terminal (externals-only) nodes,
sums their hit counters into a total and, for terminals whose fully-resolved
state satisfies the condition, into a condition count, and divides; zero total
hits yield 0.0 without dividing.
-/

theorem tally_externals_cons_inv (t : Statistics.StateTree) (cond : State → Bool)
    (idx : Nat) (rest : List Nat) (c tot : Nat)
    (h : Statistics.tally_externals t cond (idx :: rest) = some (c, tot)) :
    ∃ node state c' tot', t.nodes.get? idx = some node
      ∧ t.resolve_state idx = some state
      ∧ Statistics.tally_externals t cond rest = some (c', tot')
      ∧ c = (if cond state then c' + node.hits else c')
      ∧ tot = tot' + node.hits := by
  simp only [Statistics.tally_externals] at h
  cases hn : t.nodes.get? idx with
  | none => rw [hn] at h; simp at h
  | some node =>
      cases hr : t.resolve_state idx with
      | none => rw [hn, hr] at h; simp at h
      | some state =>
          rw [hn, hr] at h
          cases ht : Statistics.tally_externals t cond rest with
          | none => rw [ht] at h; simp at h
          | some p =>
              obtain ⟨c1, t1⟩ := p
              rw [ht] at h
              simp only [Option.some.injEq, Prod.mk.injEq] at h
              exact ⟨node, state, c1, t1, rfl, rfl, rfl, h.1.symm, h.2.symm⟩

theorem tally_externals_le (t : Statistics.StateTree) (cond : State → Bool) :
    ∀ (l : List Nat) (c tot : Nat),
      Statistics.tally_externals t cond l = some (c, tot) → c ≤ tot := by
  intro l
  induction l with
  | nil =>
      intro c tot h
      simp only [Statistics.tally_externals, Option.some.injEq, Prod.mk.injEq] at h
      omega
  | cons idx rest ih =>
      intro c tot h
      obtain ⟨node, state, c', tot', -, -, ht, hc, htot⟩ :=
        tally_externals_cons_inv t cond idx rest c tot h
      have hle := ih c' tot' ht
      by_cases hcs : cond state
      · rw [if_pos hcs] at hc; omega
      · rw [if_neg hcs] at hc; omega

theorem tally_externals_all_true (t : Statistics.StateTree) (cond : State → Bool) :
    ∀ (l : List Nat) (c tot : Nat),
      (∀ idx ∈ l, ∀ st, t.resolve_state idx = some st → cond st = true) →
      Statistics.tally_externals t cond l = some (c, tot) → c = tot := by
  intro l
  induction l with
  | nil =>
      intro c tot _ h
      simp only [Statistics.tally_externals, Option.some.injEq, Prod.mk.injEq] at h
      omega
  | cons idx rest ih =>
      intro c tot hall h
      obtain ⟨node, state, c', tot', -, hr, ht, hc, htot⟩ :=
        tally_externals_cons_inv t cond idx rest c tot h
      have hcs : cond state = true := hall idx (List.mem_cons_self idx rest) state hr
      have heq := ih c' tot' (fun j hj st hst => hall j (List.mem_cons_of_mem idx hj) st hst) ht
      rw [if_pos hcs] at hc
      omega

/-- C7: whenever the query returns a value, that value is the tallied
condition hits over the total terminal hits — at most 1, exactly 0 when no
hits were visited (no division is attempted then), and exactly 1 whenever the
condition holds at every terminal's resolved state and some hits were visited. -/
theorem c7_outcome_condition_probability_spec (t : Statistics.StateTree)
    (cond : State → Bool) (r : ℚ)
    (h : Statistics.outcome_condition_probability t cond = some r) :
    ∃ c tot, Statistics.tally_externals t cond t.externals = some (c, tot)
      ∧ c ≤ tot
      ∧ r = (if 0 < tot then (c : ℚ) / (tot : ℚ) else 0)
      ∧ 0 ≤ r ∧ r ≤ 1
      ∧ (tot = 0 → r = 0)
      ∧ ((∀ idx ∈ t.externals, ∀ st, t.resolve_state idx = some st → cond st = true) →
          0 < tot → r = 1) := by
  unfold Statistics.outcome_condition_probability at h
  cases ht : Statistics.tally_externals t cond t.externals with
  | none => rw [ht] at h; simp at h
  | some p =>
      obtain ⟨c, tot⟩ := p
      rw [ht] at h
      have h2 : (if 0 < tot then some ((c : ℚ) / (tot : ℚ)) else some 0) = some r := h
      have hle := tally_externals_le t cond t.externals c tot ht
      by_cases hpos : 0 < tot
      · rw [if_pos hpos] at h2
        rw [Option.some.injEq] at h2
        subst h2
        refine ⟨c, tot, rfl, hle, by rw [if_pos hpos], ?_, ?_, ?_, ?_⟩
        · exact div_nonneg (by positivity) (by positivity)
        · rw [div_le_one (by exact_mod_cast hpos)]
          exact_mod_cast hle
        · intro h0; omega
        · intro hall _
          have hceq : c = tot := tally_externals_all_true t cond t.externals c tot hall ht
          subst hceq
          exact div_self (by exact_mod_cast Nat.pos_iff_ne_zero.mp hpos)
      · rw [if_neg hpos] at h2
        rw [Option.some.injEq] at h2
        subst h2
        exact ⟨c, tot, rfl, hle, by rw [if_neg hpos], le_refl 0, zero_le_one,
          fun _ => rfl, fun _ hp => absurd hp hpos⟩

/-- C7 witness: on the one-node tree `c7tree` (its root is terminal with 1
hit) the always-true condition makes the query return exactly 1. -/
theorem c7_outcome_condition_probability_spec_witness :
    ∃ c tot, Statistics.tally_externals c7tree (fun _ => true) c7tree.externals
        = some (c, tot)
      ∧ c ≤ tot
      ∧ (1 : ℚ) = (if 0 < tot then (c : ℚ) / (tot : ℚ) else 0)
      ∧ (0 : ℚ) ≤ 1 ∧ (1 : ℚ) ≤ 1
      ∧ (tot = 0 → (1 : ℚ) = 0)
      ∧ ((∀ idx ∈ c7tree.externals, ∀ st, c7tree.resolve_state idx = some st →
            (fun _ => true) st = true) → 0 < tot → (1 : ℚ) = 1) :=
  have htally : Statistics.tally_externals c7tree (fun _ => true) c7tree.externals
      = some (1, 1) := by decide
  have hq : Statistics.outcome_condition_probability c7tree (fun _ => true) = some 1 := by
    unfold Statistics.outcome_condition_probability
    rw [htally]
    norm_num
  c7_outcome_condition_probability_spec c7tree (fun _ => true) 1 hq

end Antikythera
